import Mathlib

/-!
Verification of the cluster synchronization engine of
`src/framework/wazuh/cluster.py` (class `Node`): the peer request
primitive `send_request_api`, the atomic file installer `update_file`,
and the reconciliation pass `sync`, together with the data they
operate on.

The embedding follows the Python source line by line.  External
collaborators (the HTTP transport, the JSON decoder for inventory
responses, the local file inventory, the cluster configuration) are
parameters of the embedded functions, exactly as the spec's §6 lists
them.  Machine-level state (the filesystem touched by `update_file`)
is threaded explicitly as a value of type `FS`.  Python exceptions
that escape a function are modelled with `Except String`.
-/

/-- Timestamp in the fixed `YYYY-MM-DD HH:MM:SS` format, the result of
`datetime.strptime(s, "%Y-%m-%d %H:%M:%S")` (cluster.py lines 161,
216, 230). -/
structure DT where
  year : Nat
  month : Nat
  day : Nat
  hour : Nat
  minute : Nat
  second : Nat
deriving DecidableEq

/-- Python `datetime` comparison: lexicographic on
(year, month, day, hour, minute, second). -/
def DT.lt (a b : DT) : Bool :=
  if a.year ≠ b.year then decide (a.year < b.year)
  else if a.month ≠ b.month then decide (a.month < b.month)
  else if a.day ≠ b.day then decide (a.day < b.day)
  else if a.hour ≠ b.hour then decide (a.hour < b.hour)
  else if a.minute ≠ b.minute then decide (a.minute < b.minute)
  else decide (a.second < b.second)

def isLeap (y : Nat) : Bool :=
  (y % 4 == 0 && y % 100 != 0) || y % 400 == 0

def daysInMonth (y mo : Nat) : Nat :=
  if mo = 2 then (if isLeap y then 29 else 28)
  else if mo = 4 ∨ mo = 6 ∨ mo = 9 ∨ mo = 11 then 30
  else 31

/-- Numeric value of a decimal digit character. -/
def dval (c : Char) : Nat := c.toNat - 48

/-- `datetime.strptime(s, "%Y-%m-%d %H:%M:%S")`: `none` models the
`ValueError` the Python call raises on a string that does not match
the format. -/
def parseDT (s : String) : Option DT :=
  match s.toList with
  | [y1, y2, y3, y4, '-', mo1, mo2, '-', d1, d2, ' ', h1, h2, ':', mi1, mi2, ':', s1, s2] =>
    if y1.isDigit && y2.isDigit && y3.isDigit && y4.isDigit &&
       mo1.isDigit && mo2.isDigit && d1.isDigit && d2.isDigit &&
       h1.isDigit && h2.isDigit && mi1.isDigit && mi2.isDigit &&
       s1.isDigit && s2.isDigit then
      let y := dval y1 * 1000 + dval y2 * 100 + dval y3 * 10 + dval y4
      let mo := dval mo1 * 10 + dval mo2
      let d := dval d1 * 10 + dval d2
      let h := dval h1 * 10 + dval h2
      let mi := dval mi1 * 10 + dval mi2
      let se := dval s1 * 10 + dval s2
      if 1 ≤ mo ∧ mo ≤ 12 ∧ 1 ≤ d ∧ d ≤ daysInMonth y mo ∧ h ≤ 23 ∧ mi ≤ 59 ∧ se ≤ 59 then
        some ⟨y, mo, d, h, mi, se⟩
      else none
    else none
  | _ => none

/-- Days since 1970-01-01 of a civil date (the standard era-based
formula); used to model `mktime(... .timetuple())` with `TZ=UTC`
(cluster.py lines 140, 161). -/
def daysFromCivil (y mo d : Int) : Int :=
  let y2 : Int := if mo ≤ 2 then y - 1 else y
  let era : Int := (if 0 ≤ y2 then y2 else y2 - 399) / 400
  let yoe : Int := y2 - era * 400
  let mp : Int := if 2 < mo then mo - 3 else mo + 9
  let doy : Int := (153 * mp + 2) / 5 + d - 1
  let doe : Int := yoe * 365 + yoe / 4 - yoe / 100 + doy
  era * 146097 + doe - 719468

/-- `int(mktime(datetime.strptime(mtime, "%Y-%m-%d %H:%M:%S").timetuple()))`
under `TZ=UTC` (cluster.py line 161). -/
def toEpoch (t : DT) : Int :=
  daysFromCivil t.year t.month t.day * 86400 + t.hour * 3600 + t.minute * 60 + t.second

/-- The `conditions` value carried by an inventory entry: which of the
three comparison predicates the file's owner declares relevant
(cluster.py lines 248, 255, 262). -/
structure CondDecl where
  different_md5 : Bool
  remote_time_higher : Bool
  larger_file_size : Bool
deriving DecidableEq

/-- One value of the inventory mapping delivered by `manager.get_files()`
or by a peer's `/manager/files` endpoint: every field `sync` reads from
`own_items[filename]` / `their_items[filename]`. -/
structure FileMeta where
  md5 : String
  size : Nat
  modification_time : String
  mode : String
  user : String
  group : String
  write_mode : String
  conditions : CondDecl
deriving DecidableEq

/-- A file inventory: Python dict from file name to its metadata. -/
def Inventory := List (String × FileMeta)

/-- The `local_file` / `remote_file` dict built inside the shared-files
loop (cluster.py lines 218-228 and 232-242): the inventory entry's
fields plus the `name` key. -/
structure FileRec where
  name : String
  md5 : String
  size : Nat
  modification_time : String
  mode : String
  user : String
  group : String
  write_mode : String
  conditions : CondDecl
deriving DecidableEq

/-- Field-by-field copy performed by the record-building code of the
shared-files loop.  The missing-files branch (lines 291-300) copies the
same fields except `conditions`; that key is never read from a built
record downstream, so both branches are modelled with the full copy. -/
def mkFileRec (filename : String) (m : FileMeta) : FileRec :=
  ⟨filename, m.md5, m.size, m.modification_time, m.mode, m.user, m.group, m.write_mode,
   m.conditions⟩

/-- The `check_item` / `remote_item` dict (cluster.py lines 269-274 and
302-307).  `checked_conditions` here is the dict named `conditions` in
the source: the map of evaluated condition results, in insertion
order. -/
structure CheckItem where
  file : FileRec
  checked_conditions : List (String × Bool)
  updated : Bool
  node : String
deriving DecidableEq

/-- `{data: ...}` shape of a successfully decoded `/manager/files`
response (cluster.py lines 204-206). -/
structure Resp where
  data : List (String × FileMeta)
deriving DecidableEq

/-- The dynamically typed `data` value returned by `send_request_api`:
either a decoded JSON object or a raw / diagnostic string. -/
inductive Payload where
  | jsonData (r : Resp)
  | textData (s : String)
deriving DecidableEq

/-- Outcome of `requests.get` as the transport layer resolves it
(cluster.py lines 108-123): a response with a status code and body, or
one of the exception classes the source catches, each carrying its
`str(e)` message. -/
inductive ReqOutcome where
  | ok (status : Nat) (text : String)
  | timeout (msg : String)
  | tooManyRedirects (msg : String)
  | requestExc (msg : String)
  | otherExc (msg : String)
deriving DecidableEq

/-- The `type` argument of `send_request_api`: `"json"` or `"text"`. -/
inductive ReqType where
  | json
  | text
deriving DecidableEq

/-- `Node.send_request_api` (cluster.py lines 104-134).  `o` is what the
transport does for this request; `parse` is the external JSON decoder
(`json.loads` composed with the response shape), whose `error` carries
`str(e)`.  Returns the `(error, data)` pair of line 134. -/
def send_request_api (o : ReqOutcome) (ty : ReqType)
    (parse : String → Except String Resp) : Nat × Payload :=
  match o with
  | .timeout msg => (1, .textData msg)
  | .tooManyRedirects msg => (2, .textData msg)
  | .requestExc msg => (3, .textData msg)
  | .otherExc msg => (4, .textData msg)
  | .ok status text =>
    if status == 401 then (401, .textData text)
    else
      match ty with
      | .json =>
        match parse text with
        | .ok j => (0, .jsonData j)
        | .error e => (5, .textData e)
      | .text => (0, .textData text)

def payloadText (p : Payload) (dflt : String) : String :=
  match p with
  | .textData s => s
  | .jsonData _ => dflt

def payloadJson (p : Payload) (dflt : Resp) : Resp :=
  match p with
  | .jsonData r => r
  | .textData _ => dflt

/-- Metadata of one file on disk, as far as `update_file` manipulates
it: content, ownership, permission bits, and the two timestamps set by
`utime`. -/
structure FileData where
  content : String
  owner : String
  group : String
  perm : Nat
  atime : Int
  mtime : Int
deriving DecidableEq

/-- Filesystem state: the files present, plus which paths the `ossec`
process may open for writing (the environment-dependent failure mode
of `open(f_temp, "w")`). -/
structure FS where
  files : String → Option FileData
  canWrite : String → Bool

/-- `open(p, "w")` + `write` + `close`: creates or truncates `p`.  The
creating process runs as `ossec` (see the source's comment on line
152), and the metadata written here is immediately pinned by the
`chown`/`chmod` that follow. -/
def FS.setFile (fs : FS) (p : String) (d : FileData) : FS :=
  { files := fun q => if q = p then some d else fs.files q, canWrite := fs.canWrite }

def FS.chownFile (fs : FS) (p owner group : String) : FS :=
  { files := fun q =>
      if q = p then (fs.files q).map (fun d => { d with owner := owner, group := group })
      else fs.files q,
    canWrite := fs.canWrite }

def FS.chmodFile (fs : FS) (p : String) (perm : Nat) : FS :=
  { files := fun q =>
      if q = p then (fs.files q).map (fun d => { d with perm := perm })
      else fs.files q,
    canWrite := fs.canWrite }

def FS.utimeFile (fs : FS) (p : String) (atime mtime : Int) : FS :=
  { files := fun q =>
      if q = p then (fs.files q).map (fun d => { d with atime := atime, mtime := mtime })
      else fs.files q,
    canWrite := fs.canWrite }

/-- `os.rename(src, dst)`: atomic replacement of `dst` by `src`. -/
def FS.renameFile (fs : FS) (src dst : String) : FS :=
  { files := fun q =>
      if q = src then none
      else if q = dst then fs.files src
      else fs.files q,
    canWrite := fs.canWrite }

/-- `'{0}.tmp.cluster'.format(fullpath)` (cluster.py line 143). -/
def tmpName (fullpath : String) : String := fullpath ++ ".tmp.cluster"

/-- Final filesystem together with the exception, if any, that escaped
`update_file`. -/
structure InstallResult where
  fs : FS
  error : Option String

/-- `Node.update_file` (cluster.py lines 137-165), with the list of
intermediate filesystem states it passes through before the final
`rename`.  Steps, in source order: write the temporary sibling
(line 143-146); `chown` to the hardcoded `ossec`/`ossec` and `chmod`
to `0o660` (lines 156-159; the peer-supplied `owner`/`group`/`mode`
are the disabled lines 150-153 and are ignored); parse `mtime` and
`utime` both timestamps to it (lines 161-162); atomic `rename`
(line 165).  A step that raises leaves the states reached so far. -/
def update_file_run (fs : FS)
    (fullpath content owner group mode mtime w_mode : String) :
    List FS × InstallResult :=
  let f_temp := tmpName fullpath
  if fs.canWrite f_temp then
    let fs1 := fs.setFile f_temp ⟨content, "ossec", "ossec", 420, 0, 0⟩
    let fs2 := fs1.chownFile f_temp "ossec" "ossec"
    let fs3 := fs2.chmodFile f_temp 432
    match parseDT mtime with
    | none => ([fs, fs1, fs2, fs3], ⟨fs3, some "ValueError: time data does not match format"⟩)
    | some dt =>
      let mtime_epoch := toEpoch dt
      let fs4 := fs3.utimeFile f_temp mtime_epoch mtime_epoch
      let fs5 := fs4.renameFile f_temp fullpath
      ([fs, fs1, fs2, fs3, fs4], ⟨fs5, none⟩)
  else
    ([fs], ⟨fs, some "IOError: could not open file for writing"⟩)

def update_file (fs : FS) (fullpath content owner group mode mtime w_mode : String) :
    InstallResult :=
  (update_file_run fs fullpath content owner group mode mtime w_mode).2

/-- The filesystem states `update_file` reaches strictly before the
final `rename`. -/
def update_file_trace (fs : FS) (fullpath content owner group mode mtime w_mode : String) :
    List FS :=
  (update_file_run fs fullpath content owner group mode mtime w_mode).1

/-- Evaluation of the declared conditions of one shared file
(cluster.py lines 245-267): builds `checked_conditions` (the list of
declared condition names, in the fixed source order) and `conditions`
(the dict of evaluated results, here an insertion-ordered association
list).  Every declared condition is evaluated; the three `if` blocks
do not short-circuit one another. -/
def evalConditions (local_file remote_file : FileRec)
    (local_file_time remote_file_time : DT) :
    List String × List (String × Bool) :=
  let checked_conditions : List String := []
  let conditions : List (String × Bool) := []
  let (checked_conditions, conditions) :=
    if remote_file.conditions.different_md5 then
      (checked_conditions ++ ["different_md5"],
       conditions ++ [("different_md5", remote_file.md5 != local_file.md5)])
    else (checked_conditions, conditions)
  let (checked_conditions, conditions) :=
    if remote_file.conditions.remote_time_higher then
      (checked_conditions ++ ["remote_time_higher"],
       conditions ++ [("remote_time_higher", DT.lt local_file_time remote_file_time)])
    else (checked_conditions, conditions)
  let (checked_conditions, conditions) :=
    if remote_file.conditions.larger_file_size then
      (checked_conditions ++ ["larger_file_size"],
       conditions ++ [("larger_file_size", decide (local_file.size < remote_file.size))])
    else (checked_conditions, conditions)
  (checked_conditions, conditions)

/-- The `all_conds` counting loop (cluster.py lines 276-281): walk
`checked_conditions` in order, add one per true result, break at the
first false one. -/
def countTrues (conditions : List (String × Bool)) : List String → Nat
  | [] => 0
  | c :: cs =>
    match conditions.lookup c with
    | some true => countTrues conditions cs + 1
    | _ => 0

/-- Processing of one shared file (cluster.py lines 214-286): parse
both modification times (`strptime` raises on malformed input, which
escapes `sync`), build both records, evaluate the declared conditions,
and decide.  Returns the decision (`true` = the item joins
`download_list`, line 284; `false` = it joins `discard_list`,
line 286) together with the built `check_item`. -/
def checkFile (node filename : String) (own_meta their_meta : FileMeta) :
    Except String (Bool × CheckItem) :=
  match parseDT own_meta.modification_time with
  | none => .error "ValueError: time data does not match format"
  | some local_file_time =>
    match parseDT their_meta.modification_time with
    | none => .error "ValueError: time data does not match format"
    | some remote_file_time =>
      let local_file := mkFileRec filename own_meta
      let remote_file := mkFileRec filename their_meta
      let (checked_conditions, conditions) :=
        evalConditions local_file remote_file local_file_time remote_file_time
      let check_item : CheckItem :=
        { file := remote_file, checked_conditions := conditions, updated := false, node := node }
      let all_conds := countTrues conditions checked_conditions
      .ok (all_conds == checked_conditions.length, check_item)

/-- The shared-files loop (cluster.py lines 214-286) over the given
list of shared names: accumulates the additions to `download_list` and
to `discard_list`, in iteration order.  A missing key would raise
`KeyError` exactly as the dict accesses of the source do. -/
def processShared (node : String) (own_items their_items : Inventory) :
    List String → Except String (List CheckItem × List CheckItem)
  | [] => .ok ([], [])
  | filename :: rest =>
    match own_items.lookup filename, their_items.lookup filename with
    | some own_meta, some their_meta =>
      match checkFile node filename own_meta their_meta with
      | .error e => .error e
      | .ok (accept, check_item) =>
        match processShared node own_items their_items rest with
        | .error e => .error e
        | .ok (download_list, discard_adds) =>
          if accept then .ok (check_item :: download_list, discard_adds)
          else .ok (download_list, check_item :: discard_adds)
    | _, _ => .error "KeyError"

/-- The missing-files loop (cluster.py lines 289-309).  `node` at this
point is the peer address, a string, so the `node["node"]` lookup on
line 306 raises `TypeError` on the first iteration; the loop therefore
yields items only when `missing_files_locally` is empty. -/
def processMissing : List String → Except String (List CheckItem)
  | [] => .ok []
  | _ :: _ => .error "TypeError: string indices must be integers"

/-- The error list entries (cluster.py lines 200 and 320): a peer-level
entry `{'node':, 'api_error':, 'code':}` or a file-level entry
`{'item':, 'reason':}`. -/
inductive ErrEntry where
  | peerErr (node : String) (api_error : Payload) (code : Nat)
  | itemErr (item : CheckItem) (reason : Payload)
deriving DecidableEq

/-- The mutable state of one `sync` run: the filesystem plus the three
accumulator lists of cluster.py lines 186-188. -/
structure SyncState where
  fs : FS
  discard_list : List CheckItem
  error_list : List ErrEntry
  sychronize_list : List CheckItem

/-- The download loop (cluster.py lines 314-332): per accepted item,
fetch `<node>/manager/files?download=<name>` as text; on transport
failure append a file-level error entry and continue (line 321); on
success run `update_file`.  An exception from `update_file` is caught,
an error entry is appended, and then line 327 re-raises it — the
appended entry and all accumulated state are lost and the exception
escapes `sync`; the `continue` on line 328 is unreachable. -/
def processDownloads (net : String → ReqOutcome) (parse : String → Except String Resp)
    (node : String) :
    List CheckItem → FS → List ErrEntry → List CheckItem →
    Except String (FS × List ErrEntry × List CheckItem)
  | [], fs, error_list, sychronize_list => .ok (fs, error_list, sychronize_list)
  | item :: rest, fs, error_list, sychronize_list =>
    let url := node ++ "/manager/files?download=" ++ item.file.name
    let r := send_request_api (net url) ReqType.text parse
    if r.1 != 0 then
      processDownloads net parse node rest fs
        (error_list ++ [ErrEntry.itemErr item r.2]) sychronize_list
    else
      let downloaded_file := payloadText r.2 ""
      let res := update_file fs item.file.name downloaded_file
        item.file.user item.file.group item.file.mode item.file.modification_time
        item.file.write_mode
      match res.error with
      | some e => .error e
      | none =>
        processDownloads net parse node rest res.fs error_list
          (sychronize_list ++ [{ item with updated := true }])

/-- Processing of one configured peer (cluster.py lines 193-332):
fetch its inventory; on a nonzero error code append one peer-level
error entry and move on (lines 199-201); otherwise partition the file
names, run the shared-files and missing-files loops, and run the
download loop over the accumulated `download_list`. -/
def processNode (net : String → ReqOutcome) (parse : String → Except String Resp)
    (own_items : Inventory) (st : SyncState) (node : String) : Except String SyncState :=
  let url := node ++ "/manager/files"
  let r := send_request_api (net url) ReqType.json parse
  if r.1 != 0 then
    .ok { st with error_list := st.error_list ++ [ErrEntry.peerErr node r.2 r.1] }
  else
    let their_items := (payloadJson r.2 ⟨[]⟩).data
    let remote_files := their_items.map Prod.fst
    let local_files := own_items.map Prod.fst
    let missing_files_locally := remote_files.filter (fun n => !(local_files.contains n))
    let _missing_files_remotely := local_files.filter (fun n => !(remote_files.contains n))
    let shared_files := local_files.filter (fun n => remote_files.contains n)
    match processShared node own_items their_items shared_files with
    | .error e => .error e
    | .ok (download_list, discard_adds) =>
      match processMissing missing_files_locally with
      | .error e => .error e
      | .ok download_adds =>
        match processDownloads net parse node (download_list ++ download_adds)
            st.fs st.error_list st.sychronize_list with
        | .error e => .error e
        | .ok (fs, error_list, sychronize_list) =>
          .ok { fs := fs, discard_list := st.discard_list ++ discard_adds,
                error_list := error_list, sychronize_list := sychronize_list }

/-- The peer loop of `sync` (cluster.py line 193): peers processed
sequentially, in configuration order; an uncaught exception aborts the
whole run. -/
def syncNodes (net : String → ReqOutcome) (parse : String → Except String Resp)
    (own_items : Inventory) : List String → SyncState → Except String SyncState
  | [], st => .ok st
  | node :: rest, st =>
    match processNode net parse own_items st node with
    | .error e => .error e
    | .ok st2 => syncNodes net parse own_items rest st2

/-- The `final_output` report of cluster.py lines 335-339. -/
structure SyncReport where
  discard : List CheckItem
  error : List ErrEntry
  updated : List CheckItem

/-- `Node.sync` (cluster.py lines 167-341), with its external
collaborators as parameters: `net` resolves each authenticated GET,
`parse` decodes inventory responses, `own_items` is
`manager.get_files()`, `nodes` is `config_cluster["cluster.nodes"]`,
and `fs` the filesystem.  Returns the `final_output` report and the
final filesystem, or the exception that escaped the run. -/
def sync (net : String → ReqOutcome) (parse : String → Except String Resp)
    (own_items : Inventory) (nodes : List String) (fs : FS) :
    Except String (SyncReport × FS) :=
  match syncNodes net parse own_items nodes
      { fs := fs, discard_list := [], error_list := [], sychronize_list := [] } with
  | .error e => .error e
  | .ok st => .ok ({ discard := st.discard_list, error := st.error_list,
                     updated := st.sychronize_list }, st.fs)

/-- The SyncItems referenced by the file-level entries of an error
list. -/
def errItems (l : List ErrEntry) : List CheckItem :=
  l.filterMap (fun e => match e with
    | ErrEntry.itemErr item _ => some item
    | ErrEntry.peerErr _ _ _ => none)

/-- Forget the `applied` flag of a SyncItem, so that the item that
entered the download loop and the flagged copy appended to `updated`
compare equal. -/
def unflag (item : CheckItem) : CheckItem := { item with updated := false }

/-- The items a peer's reconciliation decides, before any download is
attempted (mirrors `processNode` up to its download loop): nothing for
a peer whose fetch failed, otherwise the discard additions followed by
the download list. -/
def decidedNode (net : String → ReqOutcome) (parse : String → Except String Resp)
    (own_items : Inventory) (node : String) : Except String (List CheckItem) :=
  let url := node ++ "/manager/files"
  let r := send_request_api (net url) ReqType.json parse
  if r.1 != 0 then .ok []
  else
    let their_items := (payloadJson r.2 ⟨[]⟩).data
    let remote_files := their_items.map Prod.fst
    let local_files := own_items.map Prod.fst
    let missing_files_locally := remote_files.filter (fun n => !(local_files.contains n))
    let shared_files := local_files.filter (fun n => remote_files.contains n)
    match processShared node own_items their_items shared_files with
    | .error e => .error e
    | .ok (download_list, discard_adds) =>
      match processMissing missing_files_locally with
      | .error e => .error e
      | .ok download_adds => .ok (discard_adds ++ download_list ++ download_adds)

/-- All items decided over a run: concatenation over the peers in
configuration order. -/
def decidedItems (net : String → ReqOutcome) (parse : String → Except String Resp)
    (own_items : Inventory) : List String → Except String (List CheckItem)
  | [] => .ok []
  | node :: rest =>
    match decidedNode net parse own_items node with
    | .error e => .error e
    | .ok ds =>
      match decidedItems net parse own_items rest with
      | .error e => .error e
      | .ok ds2 => .ok (ds ++ ds2)

/-- A SyncItem is consistent with its peer of origin: that peer's
inventory fetch succeeded and the item's file name is one of the keys
of the fetched inventory. -/
def itemFromPeer (net : String → ReqOutcome) (parse : String → Except String Resp)
    (item : CheckItem) : Prop :=
  ∃ resp, send_request_api (net (item.node ++ "/manager/files")) ReqType.json parse
      = (0, Payload.jsonData resp)
    ∧ item.file.name ∈ resp.data.map Prod.fst

/-- All SyncItems reachable from a sync state: the discard list, the
items of file-level error entries, and the updated list. -/
def stateItems (st : SyncState) : List CheckItem :=
  st.discard_list ++ errItems st.error_list ++ st.sychronize_list

/-- Concrete environments used to instantiate the theorems below on
closed inputs. -/
def c6net : String → ReqOutcome := fun _ => ReqOutcome.timeout "timed out"

def c6parse : String → Except String Resp := fun _ => Except.error "unused"

def c6st : SyncState := ⟨⟨fun _ => none, fun _ => true⟩, [], [], []⟩

def c7fs : FS := ⟨fun _ => none, fun _ => true⟩

def c8fs : FS := ⟨fun _ => none, fun _ => true⟩

def c10parse : String → Except String Resp := fun s =>
  if s = "INV" then Except.ok ⟨[]⟩ else Except.error "No JSON object could be decoded"

/-- Local and remote records of one shared file used to instantiate
the comparator theorems on closed inputs: same checksum, later remote
time, declared conditions `different_md5` and `remote_time_higher`. -/
def c5own : FileMeta :=
  ⟨"A", 100, "2024-01-01 00:00:00", "660", "u", "g", "w", ⟨true, true, false⟩⟩

def c5their : FileMeta :=
  ⟨"A", 120, "2024-01-02 00:00:00", "660", "u", "g", "w", ⟨true, true, false⟩⟩

def c1own : FileMeta :=
  ⟨"A", 100, "2024-01-01 00:00:00", "660", "u", "g", "w", ⟨false, false, false⟩⟩

def c1their : FileMeta :=
  ⟨"B", 120, "2024-01-02 00:00:00", "660", "u", "g", "w", ⟨true, false, false⟩⟩

/-- Environment in which every accepted download succeeds but the
first installation cannot write its temporary file: two shared files,
both accepted via a declared checksum difference. -/
def c3own : Inventory :=
  [("a.conf", ⟨"A", 10, "2024-01-01 00:00:00", "660", "u", "g", "w", ⟨true, false, false⟩⟩),
   ("b.conf", ⟨"A", 10, "2024-01-01 00:00:00", "660", "u", "g", "w", ⟨true, false, false⟩⟩)]

def c3their : Inventory :=
  [("a.conf", ⟨"B", 10, "2024-01-02 00:00:00", "660", "u", "g", "w", ⟨true, false, false⟩⟩),
   ("b.conf", ⟨"B", 10, "2024-01-02 00:00:00", "660", "u", "g", "w", ⟨true, false, false⟩⟩)]

def c3net : String → ReqOutcome := fun _ => ReqOutcome.ok 200 "INV"

def c3parse : String → Except String Resp := fun s =>
  if s = "INV" then Except.ok ⟨c3their⟩ else Except.error "bad"

def c3fs : FS := ⟨fun _ => none, fun q => q != "a.conf.tmp.cluster"⟩

/-- Environment with one peer file absent from the empty local
inventory. -/
def c4net : String → ReqOutcome := fun _ => ReqOutcome.ok 200 "INV"

def c4parse : String → Except String Resp := fun s =>
  if s = "INV" then
    Except.ok ⟨[("new.conf", ⟨"B", 10, "2024-01-02 00:00:00", "660", "u", "g", "w",
      ⟨true, false, false⟩⟩)]⟩
  else Except.error "bad"

def c4fs : FS := ⟨fun _ => none, fun _ => true⟩

/-- Environment of a complete, successful run: one peer sharing two
files with the local node, one accepted (checksum differs) and one
discarded (checksums equal), download and installation succeeding. -/
def c2own : Inventory :=
  [("a.conf", ⟨"A", 10, "2024-01-01 00:00:00", "660", "u", "g", "w", ⟨true, false, false⟩⟩),
   ("b.conf", ⟨"C", 10, "2024-01-01 00:00:00", "660", "u", "g", "w", ⟨true, false, false⟩⟩)]

def c2their : Inventory :=
  [("a.conf", ⟨"B", 10, "2024-01-02 00:00:00", "660", "u", "g", "w", ⟨true, false, false⟩⟩),
   ("b.conf", ⟨"C", 10, "2024-01-02 00:00:00", "660", "u", "g", "w", ⟨true, false, false⟩⟩)]

def c2net : String → ReqOutcome := fun u =>
  if u = "http://peer/manager/files" then ReqOutcome.ok 200 "INV"
  else ReqOutcome.ok 200 "file body"

def c2parse : String → Except String Resp := fun s =>
  if s = "INV" then Except.ok ⟨c2their⟩ else Except.error "bad"

def c2fs : FS := ⟨fun _ => none, fun _ => true⟩

/-- Environment of a successful run with a file that exists only
locally: the peer shares `a.conf` (equal checksums, discard) and does
not have `local-only.txt`. -/
def c9own : Inventory :=
  [("a.conf", ⟨"A", 10, "2024-01-01 00:00:00", "660", "u", "g", "w", ⟨true, false, false⟩⟩),
   ("local-only.txt", ⟨"L", 5, "2024-01-01 00:00:00", "660", "u", "g", "w",
     ⟨false, false, false⟩⟩)]

def c9their : Inventory :=
  [("a.conf", ⟨"A", 10, "2024-01-02 00:00:00", "660", "u", "g", "w", ⟨true, false, false⟩⟩)]

def c9net : String → ReqOutcome := fun u =>
  if u = "http://peer9/manager/files" then ReqOutcome.ok 200 "INV"
  else ReqOutcome.ok 200 "body"

def c9parse : String → Except String Resp := fun s =>
  if s = "INV" then Except.ok ⟨c9their⟩ else Except.error "bad"

def c9fs : FS := ⟨fun _ => none, fun _ => true⟩

theorem ne_tmpName (p : String) : p ≠ tmpName p := by
  intro h
  have hlen : p.length = (tmpName p).length := by rw [← h]
  rw [tmpName, String.length_append] at hlen
  have h12 : (".tmp.cluster").length = 12 := rfl
  omega

/-- Claim C10: the peer request primitive never raises; every outcome
is an `(error, data)` pair with codes 401 / 1 / 2 / 3 / 4 / 5 for
HTTP 401, timeout, too many redirects, other transport failure, other
exception and JSON decode failure respectively, and any response whose
status is not 401 (404 and 500 included) is classified as success
(error 0) with its body parsed as JSON or returned as raw text. -/
theorem send_request_api_classification (o : ReqOutcome) (ty : ReqType)
    (parse : String → Except String Resp) :
    (∀ m, o = ReqOutcome.timeout m → send_request_api o ty parse = (1, Payload.textData m))
  ∧ (∀ m, o = ReqOutcome.tooManyRedirects m →
      send_request_api o ty parse = (2, Payload.textData m))
  ∧ (∀ m, o = ReqOutcome.requestExc m → send_request_api o ty parse = (3, Payload.textData m))
  ∧ (∀ m, o = ReqOutcome.otherExc m → send_request_api o ty parse = (4, Payload.textData m))
  ∧ (∀ t, o = ReqOutcome.ok 401 t → send_request_api o ty parse = (401, Payload.textData t))
  ∧ (∀ s t, o = ReqOutcome.ok s t → s ≠ 401 → ty = ReqType.text →
      send_request_api o ty parse = (0, Payload.textData t))
  ∧ (∀ s t j, o = ReqOutcome.ok s t → s ≠ 401 → ty = ReqType.json → parse t = Except.ok j →
      send_request_api o ty parse = (0, Payload.jsonData j))
  ∧ (∀ s t e, o = ReqOutcome.ok s t → s ≠ 401 → ty = ReqType.json → parse t = Except.error e →
      send_request_api o ty parse = (5, Payload.textData e)) := by
  refine ⟨?_, ?_, ?_, ?_, ?_, ?_, ?_, ?_⟩
  · intro m h; subst h; rfl
  · intro m h; subst h; rfl
  · intro m h; subst h; rfl
  · intro m h; subst h; rfl
  · intro t h; subst h; rfl
  · intro s t h hs hty; subst h; subst hty
    simp [send_request_api, Nat.beq_eq_true_eq, hs]
  · intro s t j h hs hty hp; subst h; subst hty
    simp [send_request_api, Nat.beq_eq_true_eq, hs, hp]
  · intro s t e h hs hty hp; subst h; subst hty
    simp [send_request_api, Nat.beq_eq_true_eq, hs, hp]

/-- Claim C10 witness: a 500 response in text mode is classified as
success with the raw body, and a timeout is classified as code 1. -/
theorem send_request_api_classification_witness :
    send_request_api (ReqOutcome.ok 500 "body") ReqType.text c10parse
      = (0, Payload.textData "body")
  ∧ send_request_api (ReqOutcome.timeout "t") ReqType.json c10parse
      = (1, Payload.textData "t") :=
  ⟨(send_request_api_classification (ReqOutcome.ok 500 "body") ReqType.text
      c10parse).2.2.2.2.2.1 500 "body" rfl (by decide) rfl,
   (send_request_api_classification (ReqOutcome.timeout "t") ReqType.json
      c10parse).1 "t" rfl⟩

/-- Claim C7: `update_file` pins the installed file's ownership to the
fixed local service account and group (`ossec`/`ossec`) and its mode
to `0o660`, ignoring the peer-supplied `owner`, `group` and `mode`
arguments entirely, and sets both the access and the modification
timestamp to the epoch value of the `mtime` string parsed in the fixed
`YYYY-MM-DD HH:MM:SS` format. -/
theorem update_file_fixed_identity (fs : FS) (fullpath content : String)
    (owner group mode owner2 group2 mode2 mtime w_mode : String) (dt : DT)
    (hw : fs.canWrite (tmpName fullpath) = true) (hp : parseDT mtime = some dt) :
    (update_file fs fullpath content owner group mode mtime w_mode).error = none
  ∧ ((update_file fs fullpath content owner group mode mtime w_mode).fs).files fullpath
      = some ⟨content, "ossec", "ossec", 432, toEpoch dt, toEpoch dt⟩
  ∧ update_file fs fullpath content owner group mode mtime w_mode
      = update_file fs fullpath content owner2 group2 mode2 mtime w_mode := by
  refine ⟨?_, ?_, rfl⟩
  · simp [update_file, update_file_run, hw, hp]
  · simp [update_file, update_file_run, hw, hp, FS.renameFile, FS.utimeFile, FS.chmodFile,
      FS.chownFile, FS.setFile, if_neg (ne_tmpName fullpath)]

/-- Claim C7 witness: installing with peer-declared identity
`root`/`root`/`777` still yields `ossec`/`ossec`/`0o660` and the
parsed remote timestamp. -/
theorem update_file_fixed_identity_witness :
    (update_file c7fs "etc/rules.xml" "abc" "root" "root" "777" "2024-03-01 12:00:00" "w").error
      = none
  ∧ ((update_file c7fs "etc/rules.xml" "abc" "root" "root" "777" "2024-03-01 12:00:00" "w").fs).files
      "etc/rules.xml"
      = some ⟨"abc", "ossec", "ossec", 432, toEpoch ⟨2024, 3, 1, 12, 0, 0⟩,
              toEpoch ⟨2024, 3, 1, 12, 0, 0⟩⟩
  ∧ update_file c7fs "etc/rules.xml" "abc" "root" "root" "777" "2024-03-01 12:00:00" "w"
      = update_file c7fs "etc/rules.xml" "abc" "ossec" "ossec" "660" "2024-03-01 12:00:00" "w" :=
  update_file_fixed_identity c7fs "etc/rules.xml" "abc" "root" "root" "777" "ossec" "ossec"
    "660" "2024-03-01 12:00:00" "w" ⟨2024, 3, 1, 12, 0, 0⟩ rfl (by decide)

/-- Claim C8 counterexample: on a failure after the temporary sibling
was written (here: an `mtime` string that does not parse), the
installer raises and leaves the temporary file behind — the claimed
cleanup does not exist in the code. -/
theorem update_file_no_cleanup_counterexample :
    (update_file c8fs "rules.xml" "abc" "root" "root" "644" "bad-mtime" "w").error ≠ none
  ∧ ((update_file c8fs "rules.xml" "abc" "root" "root" "644" "bad-mtime" "w").fs).files
      (tmpName "rules.xml") ≠ none := by
  constructor
  · decide
  · decide

/-- Claim C8 amended: if the installer fails after creating the
temporary sibling file and before the final rename, the temporary
file is left behind (with the fixed identity and mode already
applied), not cleaned up; and in every case the target path is
mutated only by the atomic rename — every state the installer passes
through before the rename leaves the target's entry unchanged. -/
theorem update_file_amended (fs : FS) (fullpath content owner group mode w_mode : String)
    (hw : fs.canWrite (tmpName fullpath) = true) :
    (∀ mtime, ∀ s ∈ update_file_trace fs fullpath content owner group mode mtime w_mode,
        s.files fullpath = fs.files fullpath)
  ∧ (∀ mtime, parseDT mtime = none →
        (update_file fs fullpath content owner group mode mtime w_mode).error ≠ none
      ∧ ((update_file fs fullpath content owner group mode mtime w_mode).fs).files
          (tmpName fullpath) = some ⟨content, "ossec", "ossec", 432, 0, 0⟩
      ∧ ((update_file fs fullpath content owner group mode mtime w_mode).fs).files fullpath
          = fs.files fullpath) := by
  constructor
  · intro mtime s hs
    rw [update_file_trace, update_file_run] at hs
    simp only [hw, if_true] at hs
    rcases hparse : parseDT mtime with _ | dt <;> rw [hparse] at hs
    · simp only [List.mem_cons, List.not_mem_nil, or_false] at hs
      rcases hs with h | h | h | h <;> subst h <;>
        simp [FS.utimeFile, FS.chmodFile, FS.chownFile, FS.setFile,
          if_neg (ne_tmpName fullpath)]
    · simp only [List.mem_cons, List.not_mem_nil, or_false] at hs
      rcases hs with h | h | h | h | h <;> subst h <;>
        simp [FS.utimeFile, FS.chmodFile, FS.chownFile, FS.setFile,
          if_neg (ne_tmpName fullpath)]
  · intro mtime hp
    refine ⟨?_, ?_, ?_⟩
    · simp [update_file, update_file_run, hw, hp]
    · simp [update_file, update_file_run, hw, hp, FS.chmodFile, FS.chownFile, FS.setFile]
    · simp [update_file, update_file_run, hw, hp, FS.chmodFile, FS.chownFile, FS.setFile,
        if_neg (ne_tmpName fullpath)]

/-- Claim C8 amended, witness. -/
theorem update_file_amended_witness :
    (∀ mtime, ∀ s ∈ update_file_trace c8fs "rules.xml" "abc" "root" "root" "644" mtime "w",
        s.files "rules.xml" = c8fs.files "rules.xml")
  ∧ (∀ mtime, parseDT mtime = none →
        (update_file c8fs "rules.xml" "abc" "root" "root" "644" mtime "w").error ≠ none
      ∧ ((update_file c8fs "rules.xml" "abc" "root" "root" "644" mtime "w").fs).files
          (tmpName "rules.xml") = some ⟨"abc", "ossec", "ossec", 432, 0, 0⟩
      ∧ ((update_file c8fs "rules.xml" "abc" "root" "root" "644" mtime "w").fs).files "rules.xml"
          = c8fs.files "rules.xml") :=
  update_file_amended c8fs "rules.xml" "abc" "root" "root" "644" "w" rfl

/-- Claim C6: a peer whose inventory fetch fails contributes exactly
one error entry, tagged with the peer address and the error code, and
nothing to the discard or updated sequences; the rest of the run
continues from the state with just that entry appended, unaffected. -/
theorem sync_peer_fetch_failure (net : String → ReqOutcome)
    (parse : String → Except String Resp) (own_items : Inventory) (st : SyncState)
    (node : String) (rest : List String) (e : Nat) (d : Payload)
    (hfetch : send_request_api (net (node ++ "/manager/files")) ReqType.json parse = (e, d))
    (he : e ≠ 0) :
    syncNodes net parse own_items (node :: rest) st
      = syncNodes net parse own_items rest
          { st with error_list := st.error_list ++ [ErrEntry.peerErr node d e] } := by
  simp only [syncNodes, processNode, hfetch, bne_iff_ne, ne_eq, he, not_false_eq_true,
    if_true]

/-- Claim C6 witness: one peer that times out, with one more peer's
worth of processing unaffected (here: the empty remainder). -/
theorem sync_peer_fetch_failure_witness :
    syncNodes c6net c6parse [] ["http://peer-a"] c6st
      = syncNodes c6net c6parse [] []
          { c6st with error_list :=
              c6st.error_list ++ [ErrEntry.peerErr "http://peer-a" (Payload.textData "timed out") 1] } :=
  sync_peer_fetch_failure c6net c6parse [] c6st "http://peer-a" [] 1
    (Payload.textData "timed out") rfl (by decide)

theorem evalConditions_eq (lf rf : FileRec) (lt rt : DT) :
    evalConditions lf rf lt rt =
      ((if rf.conditions.different_md5 then ["different_md5"] else []) ++
       (if rf.conditions.remote_time_higher then ["remote_time_higher"] else []) ++
       (if rf.conditions.larger_file_size then ["larger_file_size"] else []),
       (if rf.conditions.different_md5 then [("different_md5", rf.md5 != lf.md5)] else []) ++
       (if rf.conditions.remote_time_higher then
          [("remote_time_higher", DT.lt lt rt)] else []) ++
       (if rf.conditions.larger_file_size then
          [("larger_file_size", decide (lf.size < rf.size))] else [])) := by
  cases hc1 : rf.conditions.different_md5 <;> cases hc2 : rf.conditions.remote_time_higher <;>
    cases hc3 : rf.conditions.larger_file_size <;> simp [evalConditions, hc1, hc2, hc3]

theorem countTrues_decision (c1 c2 c3 b1 b2 b3 : Bool) :
    (countTrues
        ((if c1 then [("different_md5", b1)] else []) ++
         (if c2 then [("remote_time_higher", b2)] else []) ++
         (if c3 then [("larger_file_size", b3)] else []))
        ((if c1 then ["different_md5"] else []) ++
         (if c2 then ["remote_time_higher"] else []) ++
         (if c3 then ["larger_file_size"] else []))
      == ((if c1 then ["different_md5"] else []) ++
          (if c2 then ["remote_time_higher"] else []) ++
          (if c3 then ["larger_file_size"] else [])).length)
    = ((!c1 || b1) && ((!c2 || b2) && (!c3 || b3))) := by
  cases c1 <;> cases c2 <;> cases c3 <;> cases b1 <;> cases b2 <;> cases b3 <;> rfl

/-- Claim C1: for a shared file, the decision is accept (the item joins
the download list) exactly when every condition the remote record
declares evaluates true — checksum difference, strictly higher remote
time, strictly larger remote size, each compared only when declared —
and a remote record declaring no condition vacuously yields accept. -/
theorem checkFile_accept_iff (node filename : String) (own_meta their_meta : FileMeta)
    (lt rt : DT) (accept : Bool) (item : CheckItem)
    (hl : parseDT own_meta.modification_time = some lt)
    (hr : parseDT their_meta.modification_time = some rt)
    (h : checkFile node filename own_meta their_meta = Except.ok (accept, item)) :
    (accept = true ↔
      ((their_meta.conditions.different_md5 = true → (their_meta.md5 != own_meta.md5) = true)
     ∧ (their_meta.conditions.remote_time_higher = true → DT.lt lt rt = true)
     ∧ (their_meta.conditions.larger_file_size = true →
          decide (own_meta.size < their_meta.size) = true)))
  ∧ (their_meta.conditions = ⟨false, false, false⟩ → accept = true) := by
  simp only [checkFile, hl, hr, evalConditions_eq, mkFileRec, Except.ok.injEq,
    Prod.mk.injEq] at h
  obtain ⟨ha, -⟩ := h
  subst ha
  constructor
  · rw [countTrues_decision]
    cases their_meta.conditions.different_md5 <;>
      cases their_meta.conditions.remote_time_higher <;>
      cases their_meta.conditions.larger_file_size <;>
      cases (their_meta.md5 != own_meta.md5) <;> cases DT.lt lt rt <;>
      cases decide (own_meta.size < their_meta.size) <;> simp
  · intro hcond
    rw [hcond]
    rfl

/-- Claim C1 witness: remote declares only `different_md5`, checksums
differ, decision is accept; applied at a concrete comparator run. -/
theorem checkFile_accept_iff_witness :
    (true = true ↔
      ((c1their.conditions.different_md5 = true → (c1their.md5 != c1own.md5) = true)
     ∧ (c1their.conditions.remote_time_higher = true →
          DT.lt ⟨2024, 1, 1, 0, 0, 0⟩ ⟨2024, 1, 2, 0, 0, 0⟩ = true)
     ∧ (c1their.conditions.larger_file_size = true →
          decide (c1own.size < c1their.size) = true)))
  ∧ (c1their.conditions = ⟨false, false, false⟩ → true = true) :=
  checkFile_accept_iff "http://peer" "rules.xml" c1own c1their
    ⟨2024, 1, 1, 0, 0, 0⟩ ⟨2024, 1, 2, 0, 0, 0⟩ true
    ⟨mkFileRec "rules.xml" c1their, [("different_md5", true)], false, "http://peer"⟩
    (by decide) (by decide) rfl

/-- Claim C5 counterexample: remote declares `different_md5` and
`remote_time_higher`; the checksums are equal, so the first declared
condition evaluates false — yet `remote_time_higher` is still
evaluated and present in the item's results map (with value true),
where the claim requires it to be absent. -/
theorem checkFile_no_short_circuit_counterexample :
    ∃ item, checkFile "http://peer" "rules.xml" c5own c5their = Except.ok (false, item)
      ∧ item.checked_conditions.lookup "remote_time_higher" = some true :=
  ⟨⟨mkFileRec "rules.xml" c5their,
    [("different_md5", false), ("remote_time_higher", true)], false, "http://peer"⟩,
   rfl, by decide⟩

/-- Claim C5 amended: declared conditions are evaluated in the fixed
priority order `different_md5`, `remote_time_higher`,
`larger_file_size`, but evaluation does not stop at the first false
result: every declared condition is evaluated and present in the
item's results map with its comparison result (and only declared
ones), and the file is marked discard exactly when some declared
condition evaluates false — the short-circuit exists only in the
decision walk, not in the recorded map. -/
theorem checkFile_all_evaluated (node filename : String) (own_meta their_meta : FileMeta)
    (lt rt : DT) (accept : Bool) (item : CheckItem)
    (hl : parseDT own_meta.modification_time = some lt)
    (hr : parseDT their_meta.modification_time = some rt)
    (h : checkFile node filename own_meta their_meta = Except.ok (accept, item)) :
    (item.checked_conditions.map Prod.fst
      = (if their_meta.conditions.different_md5 then ["different_md5"] else []) ++
        (if their_meta.conditions.remote_time_higher then ["remote_time_higher"] else []) ++
        (if their_meta.conditions.larger_file_size then ["larger_file_size"] else []))
  ∧ (their_meta.conditions.different_md5 = true →
      item.checked_conditions.lookup "different_md5" = some (their_meta.md5 != own_meta.md5))
  ∧ (their_meta.conditions.different_md5 = false →
      item.checked_conditions.lookup "different_md5" = none)
  ∧ (their_meta.conditions.remote_time_higher = true →
      item.checked_conditions.lookup "remote_time_higher" = some (DT.lt lt rt))
  ∧ (their_meta.conditions.remote_time_higher = false →
      item.checked_conditions.lookup "remote_time_higher" = none)
  ∧ (their_meta.conditions.larger_file_size = true →
      item.checked_conditions.lookup "larger_file_size"
        = some (decide (own_meta.size < their_meta.size)))
  ∧ (their_meta.conditions.larger_file_size = false →
      item.checked_conditions.lookup "larger_file_size" = none)
  ∧ (accept = false ↔
      ((their_meta.conditions.different_md5 = true ∧ (their_meta.md5 != own_meta.md5) = false)
     ∨ (their_meta.conditions.remote_time_higher = true ∧ DT.lt lt rt = false)
     ∨ (their_meta.conditions.larger_file_size = true
          ∧ decide (own_meta.size < their_meta.size) = false))) := by
  simp only [checkFile, hl, hr, evalConditions_eq, mkFileRec, Except.ok.injEq,
    Prod.mk.injEq] at h
  obtain ⟨ha, hi⟩ := h
  subst ha
  subst hi
  cases hc1 : their_meta.conditions.different_md5 <;>
    cases hc2 : their_meta.conditions.remote_time_higher <;>
    cases hc3 : their_meta.conditions.larger_file_size <;>
    cases hb1 : (their_meta.md5 != own_meta.md5) <;> cases hb2 : DT.lt lt rt <;>
    cases hb3 : decide (own_meta.size < their_meta.size) <;>
    simp [hc1, hc2, hc3, hb1, hb2, hb3, countTrues, List.lookup]

/-- Claim C5 amended, witness: the counterexample input, where the
results map holds both declared conditions and the decision is
discard because the first one is false. -/
theorem checkFile_all_evaluated_witness :
    ∃ item, checkFile "http://peer" "rules.xml" c5own c5their = Except.ok (false, item)
      ∧ item.checked_conditions.map Prod.fst
          = (if c5their.conditions.different_md5 then ["different_md5"] else []) ++
            (if c5their.conditions.remote_time_higher then ["remote_time_higher"] else []) ++
            (if c5their.conditions.larger_file_size then ["larger_file_size"] else [])
      ∧ (false = false ↔
          ((c5their.conditions.different_md5 = true ∧ (c5their.md5 != c5own.md5) = false)
         ∨ (c5their.conditions.remote_time_higher = true
              ∧ DT.lt ⟨2024, 1, 1, 0, 0, 0⟩ ⟨2024, 1, 2, 0, 0, 0⟩ = false)
         ∨ (c5their.conditions.larger_file_size = true
              ∧ decide (c5own.size < c5their.size) = false))) :=
  ⟨⟨mkFileRec "rules.xml" c5their,
    [("different_md5", false), ("remote_time_higher", true)], false, "http://peer"⟩,
   rfl,
   (checkFile_all_evaluated "http://peer" "rules.xml" c5own c5their
      ⟨2024, 1, 1, 0, 0, 0⟩ ⟨2024, 1, 2, 0, 0, 0⟩ false
      ⟨mkFileRec "rules.xml" c5their,
       [("different_md5", false), ("remote_time_higher", true)], false, "http://peer"⟩
      (by decide) (by decide) rfl).1,
   (checkFile_all_evaluated "http://peer" "rules.xml" c5own c5their
      ⟨2024, 1, 1, 0, 0, 0⟩ ⟨2024, 1, 2, 0, 0, 0⟩ false
      ⟨mkFileRec "rules.xml" c5their,
       [("different_md5", false), ("remote_time_higher", true)], false, "http://peer"⟩
      (by decide) (by decide) rfl).2.2.2.2.2.2.2⟩

/-- Claim C3 evaluated at its failing input: two accepted items from
one peer; the first item's installation fails, the caught exception is
re-raised (cluster.py line 327, making the `continue` on line 328
unreachable), and the whole run aborts with a propagated exception —
the second accepted item is never processed and the caller receives no
report.  The second conjunct shows both items had been decided. -/
theorem sync_install_failure_aborts :
    sync c3net c3parse c3own ["http://peer"] c3fs
      = Except.error "IOError: could not open file for writing"
  ∧ ∃ ds, decidedItems c3net c3parse c3own ["http://peer"] = Except.ok ds
      ∧ ds.length = 2 :=
  ⟨rfl, ⟨_, rfl, rfl⟩⟩

/-- Claim C4 evaluated at its failing input: a peer file absent
locally makes the missing-files loop index the peer address string
with `"node"` (cluster.py line 306), raising `TypeError`; no SyncItem
is queued and the whole run aborts. -/
theorem sync_missing_file_typeerror :
    sync c4net c4parse [] ["http://peer"] c4fs
      = Except.error "TypeError: string indices must be integers" := rfl

theorem errItems_append (l1 l2 : List ErrEntry) :
    errItems (l1 ++ l2) = errItems l1 ++ errItems l2 := by
  simp [errItems]

/-- Partition property of the download loop: on a normal return the
error list and the updated list have grown by segments `E` and `U`,
and the processed items are exactly the items of `E`'s file-level
entries plus the items of `U` (up to the `updated` flag set on the
latter), with nothing lost and nothing duplicated. -/
theorem processDownloads_ok (net : String → ReqOutcome) (parse : String → Except String Resp)
    (node : String) (items : List CheckItem) :
    ∀ (fs : FS) (error_list : List ErrEntry) (sychronize_list : List CheckItem)
      (fs2 : FS) (errs2 : List ErrEntry) (upd2 : List CheckItem),
      processDownloads net parse node items fs error_list sychronize_list
        = Except.ok (fs2, errs2, upd2) →
      ∃ E U, errs2 = error_list ++ E ∧ upd2 = sychronize_list ++ U
        ∧ (items.map unflag).Perm ((errItems E).map unflag ++ U.map unflag) := by
  induction items with
  | nil =>
    intro fs el sl fs2 errs2 upd2 h
    simp only [processDownloads, Except.ok.injEq, Prod.mk.injEq] at h
    obtain ⟨-, he, hu⟩ := h
    exact ⟨[], [], by simp [he], by simp [hu], by simp [errItems]⟩
  | cons item rest ih =>
    intro fs el sl fs2 errs2 upd2 h
    simp only [processDownloads] at h
    split at h
    · obtain ⟨E, U, hE, hU, hperm⟩ := ih _ _ _ _ _ _ h
      refine ⟨ErrEntry.itemErr item
          (send_request_api (net (node ++ "/manager/files?download=" ++ item.file.name))
            ReqType.text parse).2 :: E, U, ?_, hU, ?_⟩
      · rw [hE]; simp
      · simp only [errItems, List.filterMap_cons, List.map_cons, List.cons_append,
          List.map_cons]
        exact hperm.cons (unflag item)
    · split at h
      · exact absurd h (by simp)
      · obtain ⟨E, U, hE, hU, hperm⟩ := ih _ _ _ _ _ _ h
        refine ⟨E, { item with updated := true } :: U, hE, ?_, ?_⟩
        · rw [hU]; simp
        · simp only [List.map_cons]
          have : unflag { item with updated := true } = unflag item := rfl
          rw [this]
          exact (hperm.cons (unflag item)).trans List.perm_middle.symm

/-- Partition property of one peer's processing: the state grows by a
discard segment, an error segment and an updated segment, and together
(up to the `updated` flag) they are a permutation of exactly the items
the peer's reconciliation decided. -/
theorem processNode_ok (net : String → ReqOutcome) (parse : String → Except String Resp)
    (own_items : Inventory) (st : SyncState) (node : String) (st2 : SyncState)
    (h : processNode net parse own_items st node = Except.ok st2) :
    ∃ ds dc E U, decidedNode net parse own_items node = Except.ok ds
      ∧ st2.discard_list = st.discard_list ++ dc
      ∧ st2.error_list = st.error_list ++ E
      ∧ st2.sychronize_list = st.sychronize_list ++ U
      ∧ (ds.map unflag).Perm
          (dc.map unflag ++ (errItems E).map unflag ++ U.map unflag) := by
  simp only [processNode] at h
  split at h
  · rename_i hcond
    rw [Except.ok.injEq] at h
    subst h
    refine ⟨[], [],
      [ErrEntry.peerErr node
        (send_request_api (net (node ++ "/manager/files")) ReqType.json parse).2
        (send_request_api (net (node ++ "/manager/files")) ReqType.json parse).1], [],
      ?_, by simp, by simp, by simp, by simp [errItems]⟩
    simp only [decidedNode]
    rw [if_pos hcond]
  · rename_i hcond
    split at h
    · exact absurd h (by simp)
    · rename_i download_list discard_adds hshared
      split at h
      · exact absurd h (by simp)
      · rename_i download_adds hmissing
        split at h
        · exact absurd h (by simp)
        · rename_i fs3 errs3 upd3 hdl
          rw [Except.ok.injEq] at h
          subst h
          obtain ⟨E, U, hE, hU, hperm⟩ :=
            processDownloads_ok net parse node _ _ _ _ _ _ _ hdl
          refine ⟨discard_adds ++ download_list ++ download_adds, discard_adds, E, U,
            ?_, ?_, ?_, ?_, ?_⟩
          · simp only [decidedNode]
            rw [if_neg hcond, hshared, hmissing]
          · simp
          · simpa using hE
          · simpa using hU
          · rw [List.perm_iff_count]
            intro x
            have hcx := hperm.count_eq x
            simp only [List.map_append, List.count_append] at hcx ⊢
            omega

/-- Partition property of the peer loop, accumulated over all peers
processed so far. -/
theorem syncNodes_ok (net : String → ReqOutcome) (parse : String → Except String Resp)
    (own_items : Inventory) (nodes : List String) :
    ∀ st st2, syncNodes net parse own_items nodes st = Except.ok st2 →
      ∃ ds dc E U, decidedItems net parse own_items nodes = Except.ok ds
        ∧ st2.discard_list = st.discard_list ++ dc
        ∧ st2.error_list = st.error_list ++ E
        ∧ st2.sychronize_list = st.sychronize_list ++ U
        ∧ (ds.map unflag).Perm
            (dc.map unflag ++ (errItems E).map unflag ++ U.map unflag) := by
  induction nodes with
  | nil =>
    intro st st2 h
    simp only [syncNodes, Except.ok.injEq] at h
    subst h
    exact ⟨[], [], [], [], rfl, by simp, by simp, by simp, by simp [errItems]⟩
  | cons node rest ih =>
    intro st st2 h
    simp only [syncNodes] at h
    split at h
    · exact absurd h (by simp)
    · rename_i st3 hpn
      obtain ⟨ds1, dc1, E1, U1, hdn, hdisc1, herr1, hupd1, hperm1⟩ :=
        processNode_ok net parse own_items st node st3 hpn
      obtain ⟨ds2, dc2, E2, U2, hdi, hdisc2, herr2, hupd2, hperm2⟩ := ih st3 st2 h
      refine ⟨ds1 ++ ds2, dc1 ++ dc2, E1 ++ E2, U1 ++ U2, ?_, ?_, ?_, ?_, ?_⟩
      · simp only [decidedItems]
        rw [hdn, hdi]
      · rw [hdisc2, hdisc1, List.append_assoc]
      · rw [herr2, herr1, List.append_assoc]
      · rw [hupd2, hupd1, List.append_assoc]
      · rw [List.perm_iff_count]
        intro x
        have h1 := hperm1.count_eq x
        have h2 := hperm2.count_eq x
        simp only [List.map_append, List.count_append, errItems_append] at h1 h2 ⊢
        omega

/-- Claim C2: on every run of `sync` that returns a report, the items
that reached a decision are, as a multiset and up to the `updated`
flag set on installed ones, exactly the items of the report's three
sequences — the discard list, the file-level error entries, and the
updated list: every decided item lands in exactly one of the three,
never duplicated, never dropped. -/
theorem sync_report_partition (net : String → ReqOutcome) (parse : String → Except String Resp)
    (own_items : Inventory) (nodes : List String) (fs : FS) (rep : SyncReport) (fs2 : FS)
    (h : sync net parse own_items nodes fs = Except.ok (rep, fs2)) :
    ∃ ds, decidedItems net parse own_items nodes = Except.ok ds
      ∧ (ds.map unflag).Perm
          (rep.discard.map unflag ++ (errItems rep.error).map unflag
            ++ rep.updated.map unflag) := by
  simp only [sync] at h
  split at h
  · exact absurd h (by simp)
  · rename_i st hs
    rw [Except.ok.injEq, Prod.mk.injEq] at h
    obtain ⟨hrep, -⟩ := h
    obtain ⟨ds, dc, E, U, hdi, hdisc, herr, hupd, hperm⟩ := syncNodes_ok net parse own_items
      nodes _ st hs
    refine ⟨ds, hdi, ?_⟩
    rw [← hrep]
    simpa only [hdisc, herr, hupd] using hperm

/-- Claim C2 witness: the complete run with one accepted and one
discarded file. -/
theorem sync_report_partition_witness :
    ∃ rep fs2, sync c2net c2parse c2own ["http://peer"] c2fs = Except.ok (rep, fs2)
      ∧ ∃ ds, decidedItems c2net c2parse c2own ["http://peer"] = Except.ok ds
        ∧ (ds.map unflag).Perm
            (rep.discard.map unflag ++ (errItems rep.error).map unflag
              ++ rep.updated.map unflag) :=
  ⟨_, _, rfl, sync_report_partition c2net c2parse c2own ["http://peer"] c2fs _ _ rfl⟩

theorem processMissing_nil (l : List String) (d : List CheckItem)
    (h : processMissing l = Except.ok d) : d = [] := by
  cases l with
  | nil =>
    simp only [processMissing, Except.ok.injEq] at h
    exact h.symm
  | cons a rest => exact absurd h (by simp [processMissing])

theorem checkFile_shape (node filename : String) (own_meta their_meta : FileMeta)
    (a : Bool) (i : CheckItem)
    (h : checkFile node filename own_meta their_meta = Except.ok (a, i)) :
    i.node = node ∧ i.file.name = filename := by
  rcases hl : parseDT own_meta.modification_time with _ | lt
  · simp [checkFile, hl] at h
  · rcases hr : parseDT their_meta.modification_time with _ | rt
    · simp [checkFile, hl, hr] at h
    · simp only [checkFile, hl, hr, Except.ok.injEq, Prod.mk.injEq] at h
      obtain ⟨-, hi⟩ := h
      subst hi
      exact ⟨rfl, rfl⟩

theorem processShared_items (node : String) (own_items their_items : Inventory)
    (names : List String) :
    ∀ dl dc, processShared node own_items their_items names = Except.ok (dl, dc) →
      ∀ i, i ∈ dl ++ dc → i.node = node ∧ i.file.name ∈ names := by
  induction names with
  | nil =>
    intro dl dc h i hi
    simp only [processShared, Except.ok.injEq, Prod.mk.injEq] at h
    obtain ⟨h1, h2⟩ := h
    subst h1
    subst h2
    simp at hi
  | cons filename rest ih =>
    intro dl dc h i hi
    simp only [processShared] at h
    split at h
    · rename_i own_meta their_meta hown htheir
      split at h
      · exact absurd h (by simp)
      · rename_i accept check_item hcf
        split at h
        · exact absurd h (by simp)
        · rename_i download_list discard_adds hrec
          obtain ⟨hnode, hname⟩ := checkFile_shape node filename own_meta their_meta
            accept check_item hcf
          split at h
          · rw [Except.ok.injEq, Prod.mk.injEq] at h
            obtain ⟨h1, h2⟩ := h
            subst h1
            subst h2
            simp only [List.cons_append, List.mem_cons] at hi
            rcases hi with hi | hi
            · subst hi
              exact ⟨hnode, by simp [hname]⟩
            · obtain ⟨h3, h4⟩ := ih download_list discard_adds hrec i hi
              exact ⟨h3, by simp [h4]⟩
          · rw [Except.ok.injEq, Prod.mk.injEq] at h
            obtain ⟨h1, h2⟩ := h
            subst h1
            subst h2
            rw [List.mem_append, List.mem_cons] at hi
            rcases hi with hi | hi | hi
            · obtain ⟨h3, h4⟩ := ih download_list discard_adds hrec i (by simp [hi])
              exact ⟨h3, by simp [h4]⟩
            · subst hi
              exact ⟨hnode, by simp [hname]⟩
            · obtain ⟨h3, h4⟩ := ih download_list discard_adds hrec i (by simp [hi])
              exact ⟨h3, by simp [h4]⟩
    · exact absurd h (by simp)

theorem send_json_zero (o : ReqOutcome) (parse : String → Except String Resp) (d : Payload)
    (h : send_request_api o ReqType.json parse = (0, d)) :
    ∃ j, d = Payload.jsonData j := by
  cases o with
  | ok status text =>
    simp only [send_request_api] at h
    split at h
    · exact absurd h (by simp)
    · split at h
      · rename_i j hj
        rw [Prod.mk.injEq] at h
        exact ⟨j, h.2.symm⟩
      · exact absurd h (by simp)
  | timeout m => exact absurd h (by simp [send_request_api])
  | tooManyRedirects m => exact absurd h (by simp [send_request_api])
  | requestExc m => exact absurd h (by simp [send_request_api])
  | otherExc m => exact absurd h (by simp [send_request_api])

/-- Every item decided for a peer references that peer and a file name
present in the inventory the peer's fetch returned. -/
theorem decidedNode_items (net : String → ReqOutcome) (parse : String → Except String Resp)
    (own_items : Inventory) (node : String) (ds : List CheckItem)
    (h : decidedNode net parse own_items node = Except.ok ds) :
    ∀ i ∈ ds, itemFromPeer net parse i := by
  simp only [decidedNode] at h
  split at h
  · rw [Except.ok.injEq] at h
    subst h
    intro i hi
    simp at hi
  · rename_i hcond
    split at h
    · exact absurd h (by simp)
    · rename_i download_list discard_adds hshared
      split at h
      · exact absurd h (by simp)
      · rename_i download_adds hmissing
        rw [Except.ok.injEq] at h
        subst h
        have h0 : (send_request_api (net (node ++ "/manager/files")) ReqType.json parse).1
            = 0 := by
          simpa using hcond
        have hpair : send_request_api (net (node ++ "/manager/files")) ReqType.json parse
            = (0, (send_request_api (net (node ++ "/manager/files")) ReqType.json parse).2) := by
          rw [← h0]
        obtain ⟨j, hj⟩ := send_json_zero _ parse _ hpair
        have hda := processMissing_nil _ _ hmissing
        subst hda
        intro i hi
        simp only [List.append_nil] at hi
        have hmem : i ∈ download_list ++ discard_adds := by
          rw [List.mem_append] at hi ⊢
          tauto
        obtain ⟨hnode, hname⟩ := processShared_items node own_items _ _ _ _ hshared i hmem
        rw [List.mem_filter] at hname
        refine ⟨j, ?_, ?_⟩
        · rw [hnode, hpair, hj]
        · have := hname.2
          rw [hj] at this
          simpa [payloadJson] using this

theorem unflag_itemFromPeer (net : String → ReqOutcome) (parse : String → Except String Resp)
    (i : CheckItem) (h : itemFromPeer net parse (unflag i)) : itemFromPeer net parse i := h

theorem processNode_good (net : String → ReqOutcome) (parse : String → Except String Resp)
    (own_items : Inventory) (st : SyncState) (node : String) (st2 : SyncState)
    (h : processNode net parse own_items st node = Except.ok st2)
    (hst : ∀ i ∈ stateItems st, itemFromPeer net parse i) :
    ∀ i ∈ stateItems st2, itemFromPeer net parse i := by
  obtain ⟨ds, dc, E, U, hdn, hdisc, herr, hupd, hperm⟩ :=
    processNode_ok net parse own_items st node st2 h
  have hds := decidedNode_items net parse own_items node ds hdn
  intro i hi
  simp only [stateItems, hdisc, herr, hupd, errItems_append, List.append_assoc,
    List.mem_append] at hi
  have hold : i ∈ stateItems st ∨ (i ∈ dc ∨ i ∈ errItems E ∨ i ∈ U) := by
    simp only [stateItems, List.mem_append]
    tauto
  rcases hold with hold | hnew
  · exact hst i hold
  · have hmm : unflag i ∈ dc.map unflag ++ (errItems E).map unflag ++ U.map unflag := by
      simp only [List.mem_append, List.mem_map]
      rcases hnew with hnew | hnew | hnew
      · exact Or.inl (Or.inl ⟨i, hnew, rfl⟩)
      · exact Or.inl (Or.inr ⟨i, hnew, rfl⟩)
      · exact Or.inr ⟨i, hnew, rfl⟩
    have h2 : unflag i ∈ ds.map unflag := hperm.mem_iff.mpr hmm
    obtain ⟨j, hj_mem, hj_eq⟩ := List.mem_map.mp h2
    have hgood : itemFromPeer net parse (unflag j) := hds j hj_mem
    rw [hj_eq] at hgood
    exact unflag_itemFromPeer net parse i hgood

theorem syncNodes_good (net : String → ReqOutcome) (parse : String → Except String Resp)
    (own_items : Inventory) (nodes : List String) :
    ∀ st st2, syncNodes net parse own_items nodes st = Except.ok st2 →
      (∀ i ∈ stateItems st, itemFromPeer net parse i) →
      ∀ i ∈ stateItems st2, itemFromPeer net parse i := by
  induction nodes with
  | nil =>
    intro st st2 h hst
    simp only [syncNodes, Except.ok.injEq] at h
    subst h
    exact hst
  | cons node rest ih =>
    intro st st2 h hst
    simp only [syncNodes] at h
    split at h
    · exact absurd h (by simp)
    · rename_i st3 hpn
      exact ih st3 st2 h (processNode_good net parse own_items st node st3 hpn hst)

/-- Claim C9: a file present in the local inventory and absent from a
peer's fetched inventory gets no SyncItem from that peer in any of the
report's three sequences — the download loop, the discard list and the
file-level errors only ever reference names the peer's inventory
contains; `missing_files_remotely` is computed but drives nothing. -/
theorem sync_no_push (net : String → ReqOutcome) (parse : String → Except String Resp)
    (own_items : Inventory) (nodes : List String) (fs : FS) (rep : SyncReport) (fs2 : FS)
    (peer name : String) (resp : Resp)
    (h : sync net parse own_items nodes fs = Except.ok (rep, fs2))
    (hlocal : name ∈ own_items.map Prod.fst)
    (hfetch : send_request_api (net (peer ++ "/manager/files")) ReqType.json parse
        = (0, Payload.jsonData resp))
    (habsent : name ∉ resp.data.map Prod.fst) :
    ∀ item, (item ∈ rep.discard ∨ item ∈ errItems rep.error ∨ item ∈ rep.updated) →
      item.node = peer → item.file.name ≠ name := by
  simp only [sync] at h
  split at h
  · exact absurd h (by simp)
  · rename_i st hs
    rw [Except.ok.injEq, Prod.mk.injEq] at h
    obtain ⟨hrep, -⟩ := h
    have hgood := syncNodes_good net parse own_items nodes _ st hs
      (by intro i hi; simp [stateItems, errItems] at hi)
    intro item hitem hnode hname
    have hmem : item ∈ stateItems st := by
      rw [← hrep] at hitem
      simp only [stateItems, List.mem_append]
      tauto
    obtain ⟨resp2, hfetch2, hmem2⟩ := hgood item hmem
    rw [hnode, hfetch] at hfetch2
    rw [Prod.mk.injEq, Payload.jsonData.injEq] at hfetch2
    rw [← hfetch2.2] at hmem2
    rw [hname] at hmem2
    exact habsent hmem2

/-- Claim C9 witness: `local-only.txt` exists locally, is absent from
the peer's inventory, and no item of the run's report references it
from that peer. -/
theorem sync_no_push_witness :
    ∃ rep fs2, sync c9net c9parse c9own ["http://peer9"] c9fs = Except.ok (rep, fs2)
      ∧ ∀ item, (item ∈ rep.discard ∨ item ∈ errItems rep.error ∨ item ∈ rep.updated) →
          item.node = "http://peer9" → item.file.name ≠ "local-only.txt" :=
  ⟨_, _, rfl,
   sync_no_push c9net c9parse c9own ["http://peer9"] c9fs _ _ "http://peer9"
     "local-only.txt" ⟨c9their⟩ rfl (by decide) rfl (by decide)⟩
